import Mathlib

/-!
Shallow embedding of `varilator_debugger` (`src/main.rs`).

The program annotates a disassembly log with source locations.  The parts
with logic are embedded here as executable Lean functions:

* `get_file_content` — the range filter over the log lines (main.rs:135-151);
* `get_elf_addr_and_size` — the program-header scan (main.rs:159-191);
* `get_src_file` — third-token extraction feeding addr2line (main.rs:83-97);
* `get_src_line` — `file:line` lookup in a source file (main.rs:104-126);
* `annotate` — the main loop of `run` (main.rs:196-225).

External effects are parameters: the addr2line process is a function
`String → String` from the address operand to its stdout text, and the
filesystem is a function `String → Option (List String)` from a file name
to its lines (`none` = the file cannot be opened).  Machine integers are
`Nat` with explicit bounds: `u32::from_str_radix(..).unwrap()` is modelled
as `Option`, `none` standing for the panic on overflow, and the usize
subtraction `number - 1` uses the wrapping (release-profile) semantics.
Regexes are modelled character by character; the character classes
`\s`, `\d`-extended-to-hex and `\w` are taken over ASCII, which covers
every string the tool's text formats produce.
-/

/-- The constant `DEFAULT_ERROR` of main.rs:8. -/
def DEFAULT_ERROR : String := "    Not found\n"

/-- ASCII model of the regex class `\s` and of the whitespace recognised by
`split_whitespace` on log text. -/
def isWsChar (c : Char) : Bool :=
  c = ' ' || c = '\t' || c = '\n' || c = '\r' || c = '\x0b' || c = '\x0c'

/-- The regex class `[\da-fA-F]`. -/
def isHexChar (c : Char) : Bool :=
  c.isDigit || ('a' ≤ c && c ≤ 'f') || ('A' ≤ c && c ≤ 'F')

/-- ASCII model of the regex class `\w`. -/
def isWordChar (c : Char) : Bool := c.isAlphanum || c = '_'

/-- Greedy run of characters satisfying `p`: the maximal prefix of `l` all of
whose characters satisfy `p`, with the rest.  Matching a `class+` piece of the
regexes is deterministic because in every pattern below the character class
following a `+` is disjoint from the class under the `+`. -/
def takeRun (p : Char → Bool) : List Char → List Char × List Char
  | [] => ([], [])
  | c :: cs =>
    if p c then
      let r := takeRun p cs
      (c :: r.1, r.2)
    else ([], c :: cs)

/-- `class+` (at least one character): `none` when the run is empty. -/
def reqRun (p : Char → Bool) (l : List Char) : Option (List Char × List Char) :=
  match takeRun p l with
  | ([], _) => none
  | (a, rest) => some (a, rest)

/-- Literal piece of a regex: strip `lit` from the front of `l`. -/
def stripLit : List Char → List Char → Option (List Char)
  | [], l => some l
  | _ :: _, [] => none
  | c :: cs, d :: ds => if c = d then stripLit cs ds else none

/-- Try a matcher at every start position, leftmost first — the `find`
semantics of `Regex::captures`.  None of the patterns below can match the
empty string, so the position at the very end need not be tried. -/
def findFirst {α : Type} (m : List Char → Option α) : List Char → Option α
  | [] => none
  | c :: cs =>
    match m (c :: cs) with
    | some r => some r
    | none => findFirst m cs

/-- One attempt, anchored at the start of `l`, of the log-line regex of
main.rs:136, `[\da-fA-F]+\s+[\da-fA-F]+\s+([\da-fA-F]+)\s+[\da-fA-F]+\s+\w+`;
returns the capture (the third hexadecimal field). -/
def matchLogAt (l : List Char) : Option (List Char) := do
  let (_, l) ← reqRun isHexChar l
  let (_, l) ← reqRun isWsChar l
  let (_, l) ← reqRun isHexChar l
  let (_, l) ← reqRun isWsChar l
  let (cap, l) ← reqRun isHexChar l
  let (_, l) ← reqRun isWsChar l
  let (_, l) ← reqRun isHexChar l
  let (_, l) ← reqRun isWsChar l
  let (_, _) ← reqRun isWordChar l
  pure cap

/-- `address_re.captures(l)` of main.rs:141: the capture of the leftmost
match of the log-line regex. -/
def lineAddrCap (s : String) : Option (List Char) := findFirst matchLogAt s.data

/-- Value of one hexadecimal digit. -/
def hexDigVal (c : Char) : Nat :=
  if c.isDigit then c.toNat - 48
  else if 'a' ≤ c && c ≤ 'f' then c.toNat - 87
  else if 'A' ≤ c && c ≤ 'F' then c.toNat - 55
  else 0

/-- Numeric value of a big-endian string of hexadecimal digits. -/
def hexValCh (l : List Char) : Nat := l.foldl (fun a c => a * 16 + hexDigVal c) 0

/-- `u32::from_str_radix(cap, 16)` on a capture (nonempty, all hexadecimal by
construction of the regexes): succeeds exactly when the value fits in 32 bits. -/
def fromHexU32 (l : List Char) : Option Nat :=
  if hexValCh l < 4294967296 then some (hexValCh l) else none

/-- `get_file_content` of main.rs:135-151, per list of log lines.  The result
is `none` when some scanned line makes `u32::from_str_radix(..).unwrap()`
panic (main.rs:142), aborting the run; otherwise `some` of the retained
lines, each with `"\n"` appended, concatenated in input order. -/
def get_file_content (start_addr end_addr : Nat) : List String → Option String
  | [] => some ""
  | l :: ls =>
    match lineAddrCap l with
    | none => get_file_content start_addr end_addr ls
    | some cap =>
      match fromHexU32 cap with
      | none => none
      | some addr =>
        (get_file_content start_addr end_addr ls).map
          (fun rest => (if start_addr < addr && end_addr > addr then l ++ "\n" else "") ++ rest)

/-- The filter as `run` invokes it (main.rs:201): the end bound is
`start_addr + size` computed in `u32`, wrapping on overflow
(release-profile semantics of the `+`). -/
def filterWithRange (s n : Nat) (lines : List String) : Option String :=
  get_file_content s ((s + n) % 4294967296) lines

/-- One attempt, anchored at the start of `l`, of the entry-point regex of
main.rs:174, `Entry point\s0x([\da-fA-F]+)`; returns the capture. -/
def matchEntryAt (l : List Char) : Option (List Char) := do
  let l ← stripLit "Entry point".data l
  match l with
  | c :: l =>
    if isWsChar c then do
      let l ← stripLit "0x".data l
      let (cap, _) ← reqRun isHexChar l
      pure cap
    else none
  | [] => none

/-- One `\s+0x[\da-fA-F]+` unit of the LOAD regex: returns the hexadecimal
run and the rest. -/
def hexField (l : List Char) : Option (List Char × List Char) := do
  let (_, l) ← reqRun isWsChar l
  let l ← stripLit "0x".data l
  reqRun isHexChar l

/-- One attempt, anchored at the start of `l`, of the LOAD regex of
main.rs:175,
`LOAD\s+0x[\da-fA-F]+\s+0x[\da-fA-F]+\s+0x([\da-fA-F]+)\s+0x([\da-fA-F]+)\s+0x[\da-fA-F]+\s+`;
returns the two captures (third and fourth `0x` fields after `LOAD`). -/
def matchLoadAt (l : List Char) : Option (List Char × List Char) := do
  let l ← stripLit "LOAD".data l
  let (_, l) ← hexField l
  let (_, l) ← hexField l
  let (cap1, l) ← hexField l
  let (cap2, l) ← hexField l
  let (_, l) ← hexField l
  let (_, _) ← reqRun isWsChar l
  pure (cap1, cap2)

/-- Outcome of matching one line of the program-header dump against the two
regexes, in the order of main.rs:179-182 (entry first, LOAD only otherwise). -/
inductive ElfEv where
  | entry (v : Nat)
  | load (b m : Nat)
  | other
deriving DecidableEq

/-- Classify a dump line; the numeric values are the unbounded hexadecimal
values of the captures (fitting in `u32` is checked at use site, where the
source `unwrap`s). -/
def elfEv (line : String) : ElfEv :=
  match findFirst matchEntryAt line.data with
  | some cap => .entry (hexValCh cap)
  | none =>
    match findFirst matchLoadAt line.data with
    | some (c1, c2) => .load (hexValCh c1) (hexValCh c2)
    | none => .other

/-- The scanning loop of main.rs:178-189 over dump lines, carrying
`start_addr` and `size`.  `none` is the panic of an `unwrap` on a capture
whose value does not fit in `u32`.  On a LOAD line, `size` is assigned
before the break test, and the test compares the unmasked captured base
with `start_addr & 0xFFFF0000` (main.rs:183-187). -/
def elfScan : List String → Nat → Nat → Option (Nat × Nat)
  | [], start_addr, size => some (start_addr, size)
  | l :: ls, start_addr, size =>
    match elfEv l with
    | .entry v => if v < 4294967296 then elfScan ls v size else none
    | .load b m =>
      if b < 4294967296 && m < 4294967296 then
        if b = Nat.land start_addr 0xFFFF0000 then some (start_addr, m)
        else elfScan ls start_addr m
      else none
    | .other => elfScan ls start_addr size

/-- `get_elf_addr_and_size` of main.rs:159-191, on the lines of the dump
text: initial `start_addr = u32::MAX`, initial `size = 0`. -/
def get_elf_addr_and_size (lines : List String) : Option (Nat × Nat) :=
  elfScan lines 4294967295 0

/-- Reference value for the scan: the size field of the first load pair whose
base equals `tgt`, lines after it ignored; with no such pair, the size field
of the last pair; with no pairs at all, `sz`. -/
def sizeFromLoads (tgt sz : Nat) : List (Nat × Nat) → Nat
  | [] => sz
  | (b, m) :: r => if b = tgt then m else sizeFromLoads tgt m r

/-- The load events of a dump, in order. -/
def loadsOf (ls : List String) : List (Nat × Nat) :=
  ls.filterMap fun l =>
    match elfEv l with
    | .load b m => some (b, m)
    | _ => none

/-- `str::split(':')` on the character list: never empty, keeps empty pieces. -/
def splitCh : List Char → List (List Char)
  | [] => [[]]
  | c :: cs =>
    if c = ':' then [] :: splitCh cs
    else
      match splitCh cs with
      | [] => [[c]]
      | p :: ps => (c :: p) :: ps

/-- `trim_end_matches('\n')`: drop every trailing newline. -/
def trimNl (l : List Char) : List Char := (l.reverse.dropWhile (fun c => c = '\n')).reverse

/-- Value of a big-endian string of decimal digits. -/
def digitsVal (l : List Char) : Nat := l.foldl (fun a c => a * 10 + (c.toNat - 48)) 0

/-- `str::parse::<usize>()`: an optional leading `+`, then at least one ASCII
digit, value below `2^64`. -/
def parseUsize (l : List Char) : Option Nat :=
  let d := match l with
    | '+' :: r => r
    | _ => l
  if !d.isEmpty && d.all Char.isDigit && digitsVal d < 18446744073709551616 then
    some (digitsVal d)
  else none

/-- `number - 1` on `usize` with the wrapping (release-profile) semantics,
for `number < 2^64`. -/
def wrapSub1 (n : Nat) : Nat := if n = 0 then 18446744073709551615 else n - 1

/-- `get_src_line` of main.rs:104-126 over a filesystem `fs` mapping a file
name to its lines (`none` = `File::open` fails).  The iterator `split(':')`
is read twice: piece 0 is the file name, piece 1 the line-number text; the
`for` loop over `lines().skip(number - 1)` returns the first remaining line
four-space-indented, and every fall-through returns `DEFAULT_ERROR`. -/
def get_src_line (fs : String → Option (List String)) (src_info : String) : String :=
  match splitCh src_info.data with
  | [] => DEFAULT_ERROR
  | [_] => DEFAULT_ERROR
  | filename :: line_number :: _ =>
    match parseUsize (trimNl line_number) with
    | none => DEFAULT_ERROR
    | some number =>
      match fs (String.mk filename) with
      | none => DEFAULT_ERROR
      | some contents =>
        match contents.drop (wrapSub1 number) with
        | [] => DEFAULT_ERROR
        | l :: _ => "    " ++ l ++ "\n"

/-- `split_whitespace` on a character list: maximal nonempty runs of
non-whitespace characters (`cur` is the current word, reversed). -/
def wsTokensAcc (cur : List Char) : List Char → List (List Char)
  | [] => if cur.isEmpty then [] else [cur.reverse]
  | c :: cs =>
    if isWsChar c then
      if cur.isEmpty then wsTokensAcc [] cs else cur.reverse :: wsTokensAcc [] cs
    else wsTokensAcc (c :: cur) cs

/-- `str::split_whitespace()` as a list of tokens. -/
def splitWsStr (s : String) : List String := (wsTokensAcc [] s.data).map String.mk

/-- `split_whitespace().skip(2).next()` of main.rs:84: the third token. -/
def thirdTok (s : String) : Option String := (splitWsStr s).get? 2

/-- `get_src_file` of main.rs:83-97.  `a2l` is the external addr2line
process: address operand to captured stdout text.  With fewer than three
tokens the sentinel is returned and the process is never spawned. -/
def get_src_file (a2l : String → String) (line : String) : String :=
  match thirdTok line with
  | none => DEFAULT_ERROR
  | some addr => a2l addr

/-- One iteration of the loop of `run` (main.rs:207-225).  The state is
`(last_src_line, output)`; the pushes happen in source order: on a location
change a `"\n"`, the raw resolver text, the fetched source line; then the
log line and `"\n"` unconditionally. -/
def annotateStep (a2l : String → String) (fs : String → Option (List String))
    (st : String × String) (line : String) : String × String :=
  let src_file := get_src_file a2l line
  let out := if st.1 ≠ src_file then st.2 ++ "\n" ++ src_file ++ get_src_line fs src_file else st.2
  (src_file, out ++ line ++ "\n")

/-- The whole loop of `run`: `last_src_line` starts as `""`, the output
buffer starts empty; the final buffer is returned. -/
def annotate (a2l : String → String) (fs : String → Option (List String))
    (lines : List String) : String :=
  (lines.foldl (annotateStep a2l fs) ("", "")).2

/-- A log line of the record shape of the log format: five fields joined by
single blanks. -/
def mkLogLine (f1 f2 f3 f4 f5 : String) : String :=
  f1 ++ " " ++ f2 ++ " " ++ f3 ++ " " ++ f4 ++ " " ++ f5

/-- What one log line contributes to the filtered content: itself plus a
newline when its captured address lies strictly inside the bounds, nothing
when it is outside or the line does not match the record shape. -/
def lineContrib (start_addr end_addr : Nat) (l : String) : String :=
  match lineAddrCap l with
  | none => ""
  | some cap =>
    if start_addr < hexValCh cap && end_addr > hexValCh cap then l ++ "\n" else ""

/-- Concatenation of a list of strings in order. -/
def concatAll : List String → String
  | [] => ""
  | x :: xs => x ++ concatAll xs

/-! ### Basic string and list lemmas -/

theorem data_empty : ("" : String).data = [] := rfl

theorem data_blank : (" " : String).data = [' '] := rfl

theorem data_colon : (":" : String).data = [':'] := rfl

theorem data_nl : ("\n" : String).data = ['\n'] := rfl

theorem str_append_empty (x : String) : x ++ "" = x :=
  String.ext (by simp [String.data_append, data_empty])

theorem str_newline_ne_empty (x : String) : x ++ "\n" ≠ "" := by
  intro h
  have h2 := congrArg String.data h
  simp [String.data_append, data_empty, data_nl] at h2

/-! ### Lemmas about the character-level regex pieces -/

theorem takeRun_append (p : Char → Bool) (xs ys : List Char)
    (hxs : ∀ c ∈ xs, p c = true) (hys : ∀ d t, ys = d :: t → p d = false) :
    takeRun p (xs ++ ys) = (xs, ys) := by
  induction xs with
  | nil =>
    simp only [List.nil_append]
    cases ys with
    | nil => rfl
    | cons d t => simp [takeRun, hys d t rfl]
  | cons c cs ih =>
    simp only [List.cons_append, takeRun, hxs c (List.mem_cons_self c cs), if_true,
      List.append_eq]
    rw [ih (fun e he => hxs e (List.mem_cons_of_mem c he))]

theorem reqRun_append (p : Char → Bool) (xs ys : List Char) (hne : xs ≠ [])
    (hxs : ∀ c ∈ xs, p c = true) (hys : ∀ d t, ys = d :: t → p d = false) :
    reqRun p (xs ++ ys) = some (xs, ys) := by
  unfold reqRun
  rw [takeRun_append p xs ys hxs hys]
  cases xs with
  | nil => exact absurd rfl hne
  | cons a as => rfl

theorem stripLit_append (lit r : List Char) : stripLit lit (lit ++ r) = some r := by
  induction lit with
  | nil => rfl
  | cons c cs ih => simp [stripLit, ih]

theorem ws_cases (c : Char) (h : isWsChar c = true) :
    c = ' ' ∨ c = '\t' ∨ c = '\n' ∨ c = '\r' ∨ c = '\x0b' ∨ c = '\x0c' := by
  simpa [isWsChar, Bool.or_eq_true, decide_eq_true_eq, or_assoc] using h

theorem hex_not_ws (c : Char) (h : isHexChar c = true) : isWsChar c = false := by
  cases hw : isWsChar c with
  | false => rfl
  | true => rcases ws_cases c hw with rfl | rfl | rfl | rfl | rfl | rfl <;> exact absurd h (by decide)

theorem word_not_ws (c : Char) (h : isWordChar c = true) : isWsChar c = false := by
  cases hw : isWsChar c with
  | false => rfl
  | true => rcases ws_cases c hw with rfl | rfl | rfl | rfl | rfl | rfl <;> exact absurd h (by decide)

/-! ### Lemmas about colon splitting -/

theorem splitCh_no_colon (xs : List Char) (h : ':' ∉ xs) : splitCh xs = [xs] := by
  induction xs with
  | nil => rfl
  | cons c cs ih =>
    simp only [List.mem_cons, not_or] at h
    simp only [splitCh]
    rw [if_neg (fun e => h.1 e.symm), ih h.2]

theorem splitCh_append (xs r : List Char) (h : ':' ∉ xs) :
    splitCh (xs ++ ':' :: r) = xs :: splitCh r := by
  induction xs with
  | nil => simp [splitCh]
  | cons c cs ih =>
    simp only [List.mem_cons, not_or] at h
    simp only [List.cons_append, splitCh, List.append_eq]
    rw [if_neg (fun e => h.1 e.symm), ih h.2]

/-! ### Lemmas about the annotation step -/

theorem get_src_line_sentinel (fs : String → Option (List String)) :
    get_src_line fs DEFAULT_ERROR = DEFAULT_ERROR := rfl

theorem annotateStep_ne (a2l : String → String) (fs : String → Option (List String))
    (last out line X : String) (h : get_src_file a2l line = X) (hne : last ≠ X) :
    annotateStep a2l fs (last, out) line
      = (X, out ++ "\n" ++ X ++ get_src_line fs X ++ line ++ "\n") := by
  simp only [annotateStep, h]
  rw [if_pos hne]

theorem annotateStep_same (a2l : String → String) (fs : String → Option (List String))
    (last out line : String) (h : get_src_file a2l line = last) :
    annotateStep a2l fs (last, out) line = (last, out ++ line ++ "\n") := by
  simp only [annotateStep, h]
  rw [if_neg (fun hc => hc rfl)]

theorem str_empty_append (x : String) : "" ++ x = x :=
  String.ext (by simp [String.data_append, data_empty])

theorem getLastD_cons {α : Type} (xs : List α) (m sz : α) :
    ((m :: xs).getLast?).getD sz = (xs.getLast?).getD m := by
  cases xs with
  | nil => rfl
  | cons x l =>
    rw [List.getLast?_cons_cons]
    obtain ⟨y, hy⟩ := Option.isSome_iff_exists.mp (List.getLast?_isSome.mpr (List.cons_ne_nil x l))
    rw [hy]
    rfl

/-! ### Characterization of the program-header scan -/

theorem elfScan_loads (ps : List (Nat × Nat)) :
    ∀ (ls : List String) (st sz : Nat),
      List.Forall₂ (fun (l : String) (p : Nat × Nat) => elfEv l = ElfEv.load p.1 p.2) ls ps →
      (∀ p ∈ ps, p.1 < 4294967296 ∧ p.2 < 4294967296) →
      elfScan ls st sz = some (st, sizeFromLoads (Nat.land st 0xFFFF0000) sz ps) := by
  induction ps with
  | nil =>
    intro ls st sz hf _
    cases hf
    rfl
  | cons p ps ih =>
    obtain ⟨b, m⟩ := p
    intro ls st sz hf hfit
    cases hf with
    | cons hrel htail =>
      obtain ⟨hb, hm⟩ := hfit (b, m) (List.mem_cons_self _ _)
      simp only [elfScan, hrel]
      rw [if_pos (by simp [hb, hm])]
      by_cases hq : b = Nat.land st 0xFFFF0000
      · rw [if_pos hq]
        simp [sizeFromLoads, hq]
      · rw [if_neg hq, ih _ st m htail (fun q hq2 => hfit q (List.mem_cons_of_mem _ hq2))]
        simp [sizeFromLoads, hq]

theorem elfScan_noentry (ls : List String) :
    ∀ (st sz : Nat),
      (∀ l ∈ ls, ∀ v, elfEv l ≠ ElfEv.entry v) →
      (∀ p ∈ loadsOf ls, p.1 < 4294967296 ∧ p.2 < 4294967296) →
      (∀ p ∈ loadsOf ls, p.1 ≠ Nat.land st 0xFFFF0000) →
      elfScan ls st sz = some (st, (((loadsOf ls).map Prod.snd).getLast?).getD sz) := by
  induction ls with
  | nil => intro st sz _ _ _; rfl
  | cons l ls ih =>
    intro st sz hne hfit hnq
    cases hev : elfEv l with
    | entry v => exact absurd hev (hne l (List.mem_cons_self l ls) v)
    | load b m =>
      have hl : loadsOf (l :: ls) = (b, m) :: loadsOf ls := by
        simp [loadsOf, List.filterMap_cons, hev]
      rw [hl] at hfit hnq
      obtain ⟨hb, hm⟩ := hfit (b, m) (List.mem_cons_self _ _)
      simp only [elfScan, hev]
      rw [if_pos (by simp [hb, hm]),
        if_neg (hnq (b, m) (List.mem_cons_self _ _)),
        ih st m (fun x hx => hne x (List.mem_cons_of_mem l hx))
          (fun q hq2 => hfit q (List.mem_cons_of_mem _ hq2))
          (fun q hq2 => hnq q (List.mem_cons_of_mem _ hq2))]
      rw [hl]
      simp [getLastD_cons]
    | other =>
      have hl : loadsOf (l :: ls) = loadsOf ls := by
        simp [loadsOf, List.filterMap_cons, hev]
      rw [hl] at hfit hnq
      simp only [elfScan, hev]
      rw [ih st sz (fun x hx => hne x (List.mem_cons_of_mem l hx)) hfit hnq, hl]

/-! ### Characterization of the log filter on lines whose addresses fit -/

theorem get_file_content_total (s e : Nat) (ls : List String)
    (hfit : ∀ l ∈ ls, ∀ cap, lineAddrCap l = some cap → hexValCh cap < 4294967296) :
    get_file_content s e ls = some (concatAll (ls.map (lineContrib s e))) := by
  induction ls with
  | nil => rfl
  | cons l ls ih =>
    have ih2 := ih (fun x hx cap hc => hfit x (List.mem_cons_of_mem l hx) cap hc)
    cases hc : lineAddrCap l with
    | none =>
      simp only [get_file_content, hc, ih2, List.map_cons, concatAll, lineContrib,
        str_empty_append]
    | some cap =>
      have hv : hexValCh cap < 4294967296 := hfit l (List.mem_cons_self l ls) cap hc
      simp only [get_file_content, hc, fromHexU32, if_pos hv, ih2, List.map_cons,
        concatAll, lineContrib, Option.map_some']

/-! ### The log-line regex on a canonical five-field record -/

theorem reqRun_before (p : Char → Bool) (xs : List Char) (d : Char) (t : List Char)
    (hne : xs ≠ []) (hxs : ∀ c ∈ xs, p c = true) (hd : p d = false) :
    reqRun p (xs ++ d :: t) = some (xs, d :: t) :=
  reqRun_append p xs (d :: t) hne hxs (fun e s he => by
    injection he with he1 _
    rw [← he1]
    exact hd)

theorem reqRun_single_ws (d : Char) (ys : List Char) (hd : isWsChar d = true)
    (hys : ∀ e t, ys = e :: t → isWsChar e = false) :
    reqRun isWsChar (d :: ys) = some ([d], ys) := by
  have h := reqRun_append isWsChar [d] ys (by simp)
    (by
      intro c hc
      simp only [List.mem_singleton] at hc
      subst hc
      exact hd) hys
  simpa using h

theorem head_not_ws_append (q : Char → Bool) (hq : ∀ c, q c = true → isWsChar c = false)
    (f rest : List Char) (hf : ∀ c ∈ f, q c = true) (hne : f ≠ []) :
    ∀ e t, f ++ rest = e :: t → isWsChar e = false := by
  cases f with
  | nil => exact absurd rfl hne
  | cons c cs =>
    intro e t he
    rw [List.cons_append] at he
    injection he with he1 _
    rw [← he1]
    exact hq c (hf c (List.mem_cons_self c cs))

theorem matchLogAt_fields (f1 f2 f3 f4 f5 : List Char)
    (h1 : f1 ≠ []) (hx1 : ∀ c ∈ f1, isHexChar c = true)
    (h2 : f2 ≠ []) (hx2 : ∀ c ∈ f2, isHexChar c = true)
    (h3 : f3 ≠ []) (hx3 : ∀ c ∈ f3, isHexChar c = true)
    (h4 : f4 ≠ []) (hx4 : ∀ c ∈ f4, isHexChar c = true)
    (h5 : f5 ≠ []) (hw5 : ∀ c ∈ f5, isWordChar c = true) :
    matchLogAt (f1 ++ ' ' :: (f2 ++ ' ' :: (f3 ++ ' ' :: (f4 ++ ' ' :: f5)))) = some f3 := by
  have e1 := reqRun_before isHexChar f1 ' ' (f2 ++ ' ' :: (f3 ++ ' ' :: (f4 ++ ' ' :: f5)))
    h1 hx1 (by decide)
  have e2 := reqRun_single_ws ' ' (f2 ++ ' ' :: (f3 ++ ' ' :: (f4 ++ ' ' :: f5))) (by decide)
    (head_not_ws_append isHexChar hex_not_ws f2 _ hx2 h2)
  have e3 := reqRun_before isHexChar f2 ' ' (f3 ++ ' ' :: (f4 ++ ' ' :: f5)) h2 hx2 (by decide)
  have e4 := reqRun_single_ws ' ' (f3 ++ ' ' :: (f4 ++ ' ' :: f5)) (by decide)
    (head_not_ws_append isHexChar hex_not_ws f3 _ hx3 h3)
  have e5 := reqRun_before isHexChar f3 ' ' (f4 ++ ' ' :: f5) h3 hx3 (by decide)
  have e6 := reqRun_single_ws ' ' (f4 ++ ' ' :: f5) (by decide)
    (head_not_ws_append isHexChar hex_not_ws f4 _ hx4 h4)
  have e7 := reqRun_before isHexChar f4 ' ' f5 h4 hx4 (by decide)
  have e8 := reqRun_single_ws ' ' f5 (by decide)
    (fun e t he => head_not_ws_append isWordChar word_not_ws f5 [] hw5 h5 e t
      (by rw [List.append_nil]; exact he))
  have e9 : reqRun isWordChar f5 = some (f5, []) := by
    have h := reqRun_append isWordChar f5 [] h5 hw5 (fun d t hdt => List.noConfusion hdt)
    simpa using h
  simp only [matchLogAt, e1, e2, e3, e4, e5, e6, e7, e8, e9, Option.bind_eq_bind,
    Option.some_bind]
  rfl

theorem mkLogLine_data (f1 f2 f3 f4 f5 : String) :
    (mkLogLine f1 f2 f3 f4 f5).data
      = f1.data ++ ' ' :: (f2.data ++ ' ' :: (f3.data ++ ' ' :: (f4.data ++ ' ' :: f5.data))) := by
  simp [mkLogLine, String.data_append, data_blank, List.append_assoc]

theorem mkLogLine_cap (f1 f2 f3 f4 f5 : String)
    (h1 : f1.data ≠ []) (hx1 : ∀ c ∈ f1.data, isHexChar c = true)
    (h2 : f2.data ≠ []) (hx2 : ∀ c ∈ f2.data, isHexChar c = true)
    (h3 : f3.data ≠ []) (hx3 : ∀ c ∈ f3.data, isHexChar c = true)
    (h4 : f4.data ≠ []) (hx4 : ∀ c ∈ f4.data, isHexChar c = true)
    (h5 : f5.data ≠ []) (hw5 : ∀ c ∈ f5.data, isWordChar c = true) :
    lineAddrCap (mkLogLine f1 f2 f3 f4 f5) = some f3.data := by
  have hm := matchLogAt_fields f1.data f2.data f3.data f4.data f5.data
    h1 hx1 h2 hx2 h3 hx3 h4 hx4 h5 hw5
  unfold lineAddrCap
  rw [mkLogLine_data]
  cases hd : f1.data with
  | nil => exact absurd hd h1
  | cons c cs =>
    rw [hd] at hm
    rw [List.cons_append] at hm
    simp only [List.cons_append, findFirst, List.append_eq, hm]

/-! ### Claims -/

/-- C9: `get_src_file` splits the log line on whitespace and passes exactly the
third token to the external symbolizer; with fewer than three tokens it returns
the sentinel without consulting the symbolizer (the result is the same for any
symbolizer); the line `"00 00 00001004 00 nop"` yields the operand `"00001004"`. -/
theorem c9_resolver_third_token (a2l a2lb : String → String) (l : String) :
    ((splitWsStr l).length < 3 →
      get_src_file a2l l = DEFAULT_ERROR ∧ get_src_file a2l l = get_src_file a2lb l)
    ∧ (∀ t, thirdTok l = some t → get_src_file a2l l = a2l t)
    ∧ thirdTok "00 00 00001004 00 nop" = some "00001004" := by
  refine ⟨?_, ?_, by decide⟩
  · intro hlen
    have hnone : thirdTok l = none := by
      unfold thirdTok
      exact List.get?_eq_none.mpr (by omega)
    constructor <;> simp [get_src_file, hnone]
  · intro t ht
    simp [get_src_file, ht]

/-- Witness for C9 at a two-token line and at the five-token line of the claim. -/
theorem c9_resolver_third_token_wit :
    get_src_file (fun a => "R" ++ a) "a b" = DEFAULT_ERROR
    ∧ get_src_file (fun a => "R" ++ a) "00 00 00001004 00 nop" = "R" ++ "00001004" :=
  ⟨((c9_resolver_third_token (fun a => "R" ++ a) (fun a => "R" ++ a) "a b").1 (by decide)).1,
   (c9_resolver_third_token (fun a => "R" ++ a) (fun a => "R" ++ a)
      "00 00 00001004 00 nop").2.1 "00001004" (by decide)⟩

/-- C10: the sentinel is a fixed point of `get_src_line` under every filesystem,
and the header block emitted for an unresolved log line (when the previous
location differs) carries the sentinel twice: as the location text and as the
fetched source text. -/
theorem c10_sentinel_fixed_point (a2l : String → String) (fs : String → Option (List String))
    (line last out : String) :
    get_src_line fs DEFAULT_ERROR = DEFAULT_ERROR
    ∧ (get_src_file a2l line = DEFAULT_ERROR → last ≠ DEFAULT_ERROR →
        annotateStep a2l fs (last, out) line
          = (DEFAULT_ERROR, out ++ "\n" ++ DEFAULT_ERROR ++ DEFAULT_ERROR ++ line ++ "\n")) := by
  refine ⟨get_src_line_sentinel fs, ?_⟩
  intro h hlast
  rw [annotateStep_ne a2l fs last out line DEFAULT_ERROR h hlast, get_src_line_sentinel]

/-- Witness for C10 at a concrete unresolvable line and state. -/
theorem c10_sentinel_fixed_point_wit :
    get_src_line (fun _ => none) DEFAULT_ERROR = DEFAULT_ERROR
    ∧ annotateStep (fun _ => "") (fun _ => none) ("", "z") "a b"
        = (DEFAULT_ERROR, "z" ++ "\n" ++ DEFAULT_ERROR ++ DEFAULT_ERROR ++ "a b" ++ "\n") :=
  ⟨(c10_sentinel_fixed_point (fun _ => "") (fun _ => none) "a b" "" "z").1,
   (c10_sentinel_fixed_point (fun _ => "") (fun _ => none) "a b" "" "z").2
     (by decide) (by decide)⟩

/-- C8 counterexample: on resolver output `"a:10:z"` the fetcher does not treat
`"10:z"` as the line-number text; the piece between the first and second colon,
`"10"`, parses, and with a ten-line file `a` the fetch returns line 10, not the
sentinel that the claim requires for every filesystem. -/
theorem c8_first_colon_cex :
    get_src_line
      (fun f => if f = "a" then some ["l1","l2","l3","l4","l5","l6","l7","l8","l9","l10"] else none)
      "a:10:z" = "    l10\n"
    ∧ get_src_line
      (fun f => if f = "a" then some ["l1","l2","l3","l4","l5","l6","l7","l8","l9","l10"] else none)
      "a:10:z" ≠ DEFAULT_ERROR := by
  constructor <;> decide

/-- C8 (amended): the fetcher splits the resolver output on every colon and
reads the first two pieces — the file name is the text before the first colon,
the line-number text is the text between the first and the second colon, and
everything after the second colon is ignored (the result coincides with the
fetch of the input truncated at the second colon). -/
theorem c8_split_pieces (fs : String → Option (List String)) (f t r : String)
    (hf : ':' ∉ f.data) (ht : ':' ∉ t.data) :
    splitCh (f ++ ":" ++ t ++ ":" ++ r).data = f.data :: t.data :: splitCh r.data
    ∧ get_src_line fs (f ++ ":" ++ t ++ ":" ++ r) = get_src_line fs (f ++ ":" ++ t) := by
  have hdata : (f ++ ":" ++ t ++ ":" ++ r).data = f.data ++ ':' :: (t.data ++ ':' :: r.data) := by
    simp [String.data_append, data_colon, List.append_assoc]
  have hdata2 : (f ++ ":" ++ t).data = f.data ++ ':' :: t.data := by
    simp [String.data_append, data_colon]
  have hs1 : splitCh (f ++ ":" ++ t ++ ":" ++ r).data = f.data :: t.data :: splitCh r.data := by
    rw [hdata, splitCh_append _ _ hf, splitCh_append _ _ ht]
  have hs2 : splitCh (f ++ ":" ++ t).data = [f.data, t.data] := by
    rw [hdata2, splitCh_append _ _ hf, splitCh_no_colon _ ht]
  refine ⟨hs1, ?_⟩
  unfold get_src_line
  rw [hs1, hs2]

/-- Witness for C8 (amended) at `"a:10"` extended by `":z"`. -/
theorem c8_split_pieces_wit :
    splitCh (("a" ++ ":" ++ "10" ++ ":" ++ "z")).data = "a".data :: "10".data :: splitCh "z".data
    ∧ get_src_line (fun _ => none) ("a" ++ ":" ++ "10" ++ ":" ++ "z")
        = get_src_line (fun _ => none) ("a" ++ ":" ++ "10") :=
  c8_split_pieces (fun _ => none) "a" "10" "z" (by decide) (by decide)

/-- C5: `get_src_line` returns exactly the sentinel whenever the line-number
text does not parse as a positive integer (parse failure, or the value `0`,
whose wrapping `number - 1` skips past the end of any real file), whenever the
named file cannot be opened, and whenever the file has fewer lines than the
requested line number.  `hb` carries the machine bound on a loaded file. -/
theorem c5_fetch_failures (fs : String → Option (List String)) (s : String)
    (hb : ∀ f ls, fs f = some ls → ls.length < 18446744073709551616) :
    (∀ fn ln rest, splitCh s.data = fn :: ln :: rest →
       (∀ n, parseUsize (trimNl ln) = some n → n = 0) →
       get_src_line fs s = DEFAULT_ERROR)
    ∧ (∀ fn ln rest n, splitCh s.data = fn :: ln :: rest →
       parseUsize (trimNl ln) = some n → fs (String.mk fn) = none →
       get_src_line fs s = DEFAULT_ERROR)
    ∧ (∀ fn ln rest n ls, splitCh s.data = fn :: ln :: rest →
       parseUsize (trimNl ln) = some n → fs (String.mk fn) = some ls → ls.length < n →
       get_src_line fs s = DEFAULT_ERROR) := by
  refine ⟨?_, ?_, ?_⟩
  · intro fn ln rest hsp hz
    cases hp : parseUsize (trimNl ln) with
    | none => simp only [get_src_line, hsp, hp]
    | some n =>
      have hn0 : n = 0 := hz n hp
      subst hn0
      cases hf : fs (String.mk fn) with
      | none => simp only [get_src_line, hsp, hp, hf]
      | some ls =>
        have hd : ls.drop (wrapSub1 0) = [] := List.drop_eq_nil_of_le (by
          have := hb (String.mk fn) ls hf
          rw [wrapSub1, if_pos rfl]
          omega)
        simp only [get_src_line, hsp, hp, hf, hd]
  · intro fn ln rest n hsp hp hf
    simp only [get_src_line, hsp, hp, hf]
  · intro fn ln rest n ls hsp hp hf hlen
    have hn : n ≠ 0 := by omega
    have hd : ls.drop (wrapSub1 n) = [] := List.drop_eq_nil_of_le (by
      rw [wrapSub1, if_neg hn]
      omega)
    simp only [get_src_line, hsp, hp, hf, hd]

/-- Witness for C5: line number `0`, a missing file, and a file of two lines
asked for line 3, all on one concrete filesystem. -/
theorem c5_fetch_failures_wit :
    get_src_line (fun f => if f = "g" then some ["x", "y"] else none) "g:0\n" = DEFAULT_ERROR
    ∧ get_src_line (fun f => if f = "g" then some ["x", "y"] else none) "h:1\n" = DEFAULT_ERROR
    ∧ get_src_line (fun f => if f = "g" then some ["x", "y"] else none) "g:3\n" = DEFAULT_ERROR := by
  have hb : ∀ f ls, (fun f => if f = "g" then some ["x", "y"] else none) f = some ls →
      ls.length < 18446744073709551616 := by
    intro f ls h
    simp only at h
    split at h
    · injection h with h2
      subst h2
      decide
    · exact Option.noConfusion h
  refine ⟨?_, ?_, ?_⟩
  · exact (c5_fetch_failures _ "g:0\n" hb).1 ['g'] ['0', '\n'] [] (by decide)
      (fun n hn => by
        rw [show parseUsize (trimNl ['0', '\n']) = some 0 from by decide] at hn
        exact (Option.some.inj hn).symm)
  · exact (c5_fetch_failures _ "h:1\n" hb).2.1 ['h'] ['1', '\n'] [] 1
      (by decide) (by decide) (by decide)
  · exact (c5_fetch_failures _ "g:3\n" hb).2.2 ['g'] ['3', '\n'] [] 3 ["x", "y"]
      (by decide) (by decide) (by decide) (by decide)

theorem annotateStep_ne_st (a2l : String → String) (fs : String → Option (List String))
    (st : String × String) (line X : String)
    (h : get_src_file a2l line = X) (hne : st.1 ≠ X) :
    annotateStep a2l fs st line
      = (X, st.2 ++ "\n" ++ X ++ get_src_line fs X ++ line ++ "\n") := by
  simp only [annotateStep, h]
  rw [if_pos hne]

theorem annotateStep_same_st (a2l : String → String) (fs : String → Option (List String))
    (st : String × String) (line : String) (h : get_src_file a2l line = st.1) :
    annotateStep a2l fs st line = (st.1, st.2 ++ line ++ "\n") := by
  simp only [annotateStep, h]
  rw [if_neg (fun hc => hc rfl)]

theorem annotateStep_fst (a2l : String → String) (fs : String → Option (List String))
    (st : String × String) (line : String) :
    (annotateStep a2l fs st line).1 = get_src_file a2l line := rfl

/-- C7: after any processed line, two consecutive resolution failures produce
no second header block (the sentinel text is stable), while a transition from
a failure to a resolved location, or from a resolved location to a failure,
emits a fresh header block. -/
theorem c7_sentinel_stability (a2l : String → String) (fs : String → Option (List String))
    (l1 l2 prev out : String) :
    (get_src_file a2l l1 = DEFAULT_ERROR → get_src_file a2l l2 = DEFAULT_ERROR →
      annotateStep a2l fs (annotateStep a2l fs (prev, out) l1) l2
        = (DEFAULT_ERROR, (annotateStep a2l fs (prev, out) l1).2 ++ l2 ++ "\n"))
    ∧ (∀ X, get_src_file a2l l1 = DEFAULT_ERROR → get_src_file a2l l2 = X →
        X ≠ DEFAULT_ERROR →
        annotateStep a2l fs (annotateStep a2l fs (prev, out) l1) l2
          = (X, (annotateStep a2l fs (prev, out) l1).2 ++ "\n" ++ X ++ get_src_line fs X
              ++ l2 ++ "\n"))
    ∧ (∀ X, get_src_file a2l l1 = X → X ≠ DEFAULT_ERROR →
        get_src_file a2l l2 = DEFAULT_ERROR →
        annotateStep a2l fs (annotateStep a2l fs (prev, out) l1) l2
          = (DEFAULT_ERROR, (annotateStep a2l fs (prev, out) l1).2 ++ "\n" ++ DEFAULT_ERROR
              ++ DEFAULT_ERROR ++ l2 ++ "\n")) := by
  have hst1 := annotateStep_fst a2l fs (prev, out) l1
  refine ⟨?_, ?_, ?_⟩
  · intro h1 h2
    rw [annotateStep_same_st a2l fs _ l2 (by rw [h2, hst1, h1]), hst1, h1]
  · intro X h1 h2 hX
    rw [annotateStep_ne_st a2l fs _ l2 X h2 (by rw [hst1, h1]; exact Ne.symm hX)]
  · intro X h1 hX h2
    rw [annotateStep_ne_st a2l fs _ l2 DEFAULT_ERROR h2 (by rw [hst1, h1]; exact hX),
      get_src_line_sentinel]

/-- Witness for C7: one failing pair, one failure-to-resolved transition, one
resolved-to-failure transition, on a concrete resolver. -/
theorem c7_sentinel_stability_wit :
    annotateStep (fun _ => "L\n") (fun _ => none)
        (annotateStep (fun _ => "L\n") (fun _ => none) ("p", "o") "x") "y"
      = (DEFAULT_ERROR,
          (annotateStep (fun _ => "L\n") (fun _ => none) ("p", "o") "x").2 ++ "y" ++ "\n")
    ∧ annotateStep (fun _ => "L\n") (fun _ => none)
        (annotateStep (fun _ => "L\n") (fun _ => none) ("p", "o") "x") "a b c"
      = ("L\n", (annotateStep (fun _ => "L\n") (fun _ => none) ("p", "o") "x").2
          ++ "\n" ++ "L\n" ++ get_src_line (fun _ => none) "L\n" ++ "a b c" ++ "\n")
    ∧ annotateStep (fun _ => "L\n") (fun _ => none)
        (annotateStep (fun _ => "L\n") (fun _ => none) ("p", "o") "a b c") "y"
      = (DEFAULT_ERROR,
          (annotateStep (fun _ => "L\n") (fun _ => none) ("p", "o") "a b c").2
          ++ "\n" ++ DEFAULT_ERROR ++ DEFAULT_ERROR ++ "y" ++ "\n") :=
  ⟨(c7_sentinel_stability (fun _ => "L\n") (fun _ => none) "x" "y" "p" "o").1
      (by decide) (by decide),
   (c7_sentinel_stability (fun _ => "L\n") (fun _ => none) "x" "a b c" "p" "o").2.1 "L\n"
      (by decide) (by decide) (by decide),
   (c7_sentinel_stability (fun _ => "L\n") (fun _ => none) "a b c" "y" "p" "o").2.2 "L\n"
      (by decide) (by decide) (by decide)⟩

/-- C1 counterexample: a resolver whose output for lines 1, 2 and 4 is the
empty string.  The resolved texts form the pattern `A, A, B, A` with
`A = "" ≠ B = "x\n"`, yet no header block precedes line 1, because
`last_src_line` is initialized to the empty string; the output therefore
differs from the form the claim requires (a header block before line 1). -/
theorem c1_header_retrigger_cex :
    get_src_file (fun a => if a = "d" then "x\n" else "") "a b c" = ""
    ∧ get_src_file (fun a => if a = "d" then "x\n" else "") "a b d" = "x\n"
    ∧ ("" : String) ≠ "x\n"
    ∧ annotate (fun a => if a = "d" then "x\n" else "") (fun _ => none)
        ["a b c", "a b c", "a b d", "a b c"]
        = "a b c\na b c\n\nx\n    Not found\na b d\n\n    Not found\na b c\n"
    ∧ annotate (fun a => if a = "d" then "x\n" else "") (fun _ => none)
        ["a b c", "a b c", "a b d", "a b c"]
        ≠ "\n" ++ "" ++ get_src_line (fun _ => none) ""
          ++ "a b c" ++ "\n" ++ "a b c" ++ "\n"
          ++ "\n" ++ "x\n" ++ get_src_line (fun _ => none) "x\n" ++ "a b d" ++ "\n"
          ++ "\n" ++ "" ++ get_src_line (fun _ => none) "" ++ "a b c" ++ "\n" :=
  ⟨by decide, by decide, by decide, by decide, by decide⟩

/-- C1 (amended): for four lines whose resolved location texts are
`A, A, B, A` with `A ≠ B` and `A` nonempty (resolver outputs are nonempty in
the `file:line\n`-or-sentinel format; the empty string coincides with the
initial `last_src_line` and would suppress the first header), `annotate` emits
a header block (blank line, raw location text, fetched source text) before
lines 1, 3 and 4 and none before line 2, and appends every original line plus
a newline in input order. -/
theorem c1_header_retrigger (a2l : String → String) (fs : String → Option (List String))
    (l1 l2 l3 l4 A B : String)
    (h1 : get_src_file a2l l1 = A) (h2 : get_src_file a2l l2 = A)
    (h3 : get_src_file a2l l3 = B) (h4 : get_src_file a2l l4 = A)
    (hAB : A ≠ B) (hA : A ≠ "") :
    annotate a2l fs [l1, l2, l3, l4]
      = "\n" ++ A ++ get_src_line fs A ++ l1 ++ "\n" ++ l2 ++ "\n"
        ++ "\n" ++ B ++ get_src_line fs B ++ l3 ++ "\n"
        ++ "\n" ++ A ++ get_src_line fs A ++ l4 ++ "\n" := by
  unfold annotate
  simp only [List.foldl]
  rw [annotateStep_ne a2l fs "" "" l1 A h1 (Ne.symm hA)]
  rw [annotateStep_same a2l fs A _ l2 h2]
  rw [annotateStep_ne a2l fs A _ l3 B h3 hAB]
  rw [annotateStep_ne a2l fs B _ l4 A h4 (Ne.symm hAB)]
  apply String.ext
  simp [String.data_append, data_empty, data_nl, List.append_assoc]

/-- Witness for C1 (amended) with resolved texts `"c:1\n", "c:1\n", "d:1\n", "c:1\n"`. -/
theorem c1_header_retrigger_wit :
    annotate (fun a => a ++ ":1\n") (fun _ => none) ["a b c", "a b c", "a b d", "a b c"]
      = "\n" ++ "c:1\n" ++ get_src_line (fun _ => none) "c:1\n"
          ++ "a b c" ++ "\n" ++ "a b c" ++ "\n"
        ++ "\n" ++ "d:1\n" ++ get_src_line (fun _ => none) "d:1\n" ++ "a b d" ++ "\n"
        ++ "\n" ++ "c:1\n" ++ get_src_line (fun _ => none) "c:1\n" ++ "a b c" ++ "\n" :=
  c1_header_retrigger (fun a => a ++ ":1\n") (fun _ => none) "a b c" "a b c" "a b d" "a b c"
    "c:1\n" "d:1\n" (by decide) (by decide) (by decide) (by decide) (by decide) (by decide)

/-- C2 counterexample: the filter range `s = 0xC0000000`, `n = 0xC0000000`
overflows `u32` at `start_addr + size`, so the end bound wraps to `0x80000000`
and the address `0xD0000000`, strictly inside `(s, s+n)` as the claim reads it,
is dropped rather than retained. -/
theorem c2_range_filter_cex :
    filterWithRange 3221225472 3221225472 ["00 00 d0000000 00 nop"] = some ""
    ∧ lineAddrCap "00 00 d0000000 00 nop" = some ['d', '0', '0', '0', '0', '0', '0', '0']
    ∧ hexValCh ['d', '0', '0', '0', '0', '0', '0', '0'] = 3489660928
    ∧ 3221225472 < 3489660928
    ∧ 3489660928 < 3221225472 + 3221225472
    ∧ filterWithRange 3221225472 3221225472 ["00 00 d0000000 00 nop"]
        ≠ some ("00 00 d0000000 00 nop" ++ "\n") :=
  ⟨by decide, by decide, by decide, by decide, by decide, by decide⟩

/-- C2 (amended): when `s + n` does not overflow `u32`, a record-shaped line
whose third field has value `a < 2^32` is retained by the filter exactly when
`s < a` and `a < s + n`, both strict; a line with `a = s` or `a = s + n` is
dropped. -/
theorem c2_range_filter (s n a : Nat) (f1 f2 f3 f4 f5 : String)
    (h1 : f1.data ≠ []) (hx1 : ∀ c ∈ f1.data, isHexChar c = true)
    (h2 : f2.data ≠ []) (hx2 : ∀ c ∈ f2.data, isHexChar c = true)
    (h3 : f3.data ≠ []) (hx3 : ∀ c ∈ f3.data, isHexChar c = true)
    (h4 : f4.data ≠ []) (hx4 : ∀ c ∈ f4.data, isHexChar c = true)
    (h5 : f5.data ≠ []) (hw5 : ∀ c ∈ f5.data, isWordChar c = true)
    (ha : hexValCh f3.data = a) (ha32 : a < 4294967296) (hr : s + n < 4294967296) :
    (filterWithRange s n [mkLogLine f1 f2 f3 f4 f5]
        = some (mkLogLine f1 f2 f3 f4 f5 ++ "\n") ↔ (s < a ∧ a < s + n))
    ∧ (a = s → filterWithRange s n [mkLogLine f1 f2 f3 f4 f5] = some "")
    ∧ (a = s + n → filterWithRange s n [mkLogLine f1 f2 f3 f4 f5] = some "") := by
  have hcap := mkLogLine_cap f1 f2 f3 f4 f5 h1 hx1 h2 hx2 h3 hx3 h4 hx4 h5 hw5
  have hmod : (s + n) % 4294967296 = s + n := Nat.mod_eq_of_lt hr
  have hval : fromHexU32 f3.data = some a := by
    rw [fromHexU32, ha, if_pos ha32]
  have base : filterWithRange s n [mkLogLine f1 f2 f3 f4 f5]
      = some (if s < a && s + n > a then mkLogLine f1 f2 f3 f4 f5 ++ "\n" else "") := by
    simp only [filterWithRange, get_file_content, hcap, hval, hmod, Option.map_some',
      str_append_empty]
  have hbool : (s < a && s + n > a) = true ↔ (s < a ∧ a < s + n) := by
    simp [Bool.and_eq_true, decide_eq_true_eq]
  refine ⟨?_, ?_, ?_⟩
  · rw [base]
    by_cases hc : s < a ∧ a < s + n
    · rw [if_pos (hbool.mpr hc)]
      simp [hc]
    · rw [if_neg (fun hb => hc (hbool.mp hb))]
      constructor
      · intro h
        exact absurd (Option.some.inj h).symm (str_newline_ne_empty _)
      · intro h
        exact absurd h hc
  · intro he
    rw [base, if_neg (fun hb => by have h2 := hbool.mp hb; omega)]
  · intro he
    rw [base, if_neg (fun hb => by have h2 := hbool.mp hb; omega)]

/-- Witness for C2 (amended): range `[0x8000, 0x8100)`; address `0x8050` is
retained, the boundary address `0x8000` is dropped. -/
theorem c2_range_filter_wit :
    filterWithRange 32768 256 [mkLogLine "00" "00" "8050" "00" "nop"]
      = some (mkLogLine "00" "00" "8050" "00" "nop" ++ "\n")
    ∧ filterWithRange 32768 256 [mkLogLine "00" "00" "8000" "00" "nop"] = some "" :=
  ⟨(c2_range_filter 32768 256 32848 "00" "00" "8050" "00" "nop"
      (by decide) (by decide) (by decide) (by decide) (by decide) (by decide)
      (by decide) (by decide) (by decide) (by decide)
      (by decide) (by decide) (by decide)).1.mpr ⟨by decide, by decide⟩,
   (c2_range_filter 32768 256 32768 "00" "00" "8000" "00" "nop"
      (by decide) (by decide) (by decide) (by decide) (by decide) (by decide)
      (by decide) (by decide) (by decide) (by decide)
      (by decide) (by decide) (by decide)).2.1 rfl⟩

/-- C6 counterexample: the line `"aa bb 100000000 cc dd"` matches the record
shape, but its third field needs 33 bits, `u32::from_str_radix(..).unwrap()`
panics (modelled as `none`), and the filter aborts instead of dropping or
retaining the line. -/
theorem c6_filter_total_cex :
    get_file_content 0 4294967295 ["aa bb 100000000 cc dd"] = none
    ∧ ∀ r : String, get_file_content 0 4294967295 ["aa bb 100000000 cc dd"] ≠ some r := by
  refine ⟨by decide, fun r h => ?_⟩
  rw [show get_file_content 0 4294967295 ["aa bb 100000000 cc dd"] = none from by decide] at h
  exact Option.noConfusion h

/-- C6 (amended): on input whose matched address fields all fit in 32 bits the
filter is total — it never aborts, and every line is either retained (appended
with a newline) or silently dropped, in input order. -/
theorem c6_filter_totality (s e : Nat) (ls : List String)
    (hfit : ∀ l ∈ ls, ∀ cap, lineAddrCap l = some cap → hexValCh cap < 4294967296) :
    (∃ r, get_file_content s e ls = some r)
    ∧ get_file_content s e ls = some (concatAll (ls.map (lineContrib s e))) :=
  ⟨⟨_, get_file_content_total s e ls hfit⟩, get_file_content_total s e ls hfit⟩

/-- Witness for C6 (amended) on a retained line, a non-matching line and an
out-of-range line. -/
theorem c6_filter_totality_wit :
    (∃ r, get_file_content 0 36864 ["00 00 8050 00 nop", "garbage", "aa bb ffffffff cc dd"]
        = some r)
    ∧ get_file_content 0 36864 ["00 00 8050 00 nop", "garbage", "aa bb ffffffff cc dd"]
      = some (concatAll (["00 00 8050 00 nop", "garbage", "aa bb ffffffff cc dd"].map
          (lineContrib 0 36864))) := by
  apply c6_filter_totality
  intro l hl cap hcap
  simp only [List.mem_cons, List.not_mem_nil, or_false] at hl
  rcases hl with rfl | rfl | rfl
  · rw [show lineAddrCap "00 00 8050 00 nop" = some ['8', '0', '5', '0'] from by decide] at hcap
    injection hcap with h2
    subst h2
    decide
  · rw [show lineAddrCap "garbage" = none from by decide] at hcap
    exact Option.noConfusion hcap
  · rw [show lineAddrCap "aa bb ffffffff cc dd"
        = some ['f', 'f', 'f', 'f', 'f', 'f', 'f', 'f'] from by decide] at hcap
    injection hcap with h2
    subst h2
    decide

/-- C3 counterexample: entry point `0x8000`; the first LOAD line has base
`0x8000` and size `0x100`, and `0x8000 & 0xFFFF0000 = 0x8000 & 0xFFFF0000`, so
under the claim the scan should adopt size `0x100` and stop there.  The code
instead compares the unmasked base `0x8000` with `start & 0xFFFF0000 = 0`,
does not stop, overwrites the size with every LOAD line, and returns the
second line's size `0x200`. -/
theorem c3_elf_first_match_cex :
    elfEv "Entry point 0x8000" = ElfEv.entry 32768
    ∧ elfEv "  LOAD 0x0 0x0 0x8000 0x100 0x100 R E" = ElfEv.load 32768 256
    ∧ get_elf_addr_and_size
        ["Entry point 0x8000",
         "  LOAD 0x0 0x0 0x8000 0x100 0x100 R E",
         "  LOAD 0x0 0x0 0x0 0x200 0x200 R E"]
      = some (32768, 512)
    ∧ get_elf_addr_and_size
        ["Entry point 0x8000",
         "  LOAD 0x0 0x0 0x8000 0x100 0x100 R E",
         "  LOAD 0x0 0x0 0x0 0x200 0x200 R E"]
      ≠ some (32768, 256) :=
  ⟨by decide, by decide, by decide, by decide⟩

/-- C3 (amended): the scan takes `start` from the entry line; it assigns
`size` from every LOAD line it scans and stops at the first LOAD line whose
unmasked base equals `start & 0xFFFF0000`, so the result size is
`sizeFromLoads`: the size of the first such line when one exists (later LOAD
lines ignored), otherwise the size of the last LOAD line, otherwise `0`.  The
particular dump of the claim still yields `(0x8000, 0x100)`, because its only
LOAD line's size is the last one assigned. -/
theorem c3_elf_scan (e : String) (ls : List String) (v : Nat) (ps : List (Nat × Nat))
    (he : elfEv e = ElfEv.entry v) (hv : v < 4294967296)
    (hls : List.Forall₂ (fun l p => elfEv l = ElfEv.load p.1 p.2) ls ps)
    (hps : ∀ p ∈ ps, p.1 < 4294967296 ∧ p.2 < 4294967296) :
    get_elf_addr_and_size (e :: ls) = some (v, sizeFromLoads (Nat.land v 0xFFFF0000) 0 ps)
    ∧ get_elf_addr_and_size
        ["Entry point 0x8000", "  LOAD 0x0 0x0 0x8000 0x100 0x100 R E"]
      = some (32768, 256) := by
  refine ⟨?_, by decide⟩
  unfold get_elf_addr_and_size
  simp only [elfScan, he]
  rw [if_pos hv]
  exact elfScan_loads ps ls v 0 hls hps

/-- Witness for C3 (amended) on the two-LOAD dump of the counterexample. -/
theorem c3_elf_scan_wit :
    get_elf_addr_and_size
        ["Entry point 0x8000",
         "  LOAD 0x0 0x0 0x8000 0x100 0x100 R E",
         "  LOAD 0x0 0x0 0x0 0x200 0x200 R E"]
      = some (32768, sizeFromLoads (Nat.land 32768 0xFFFF0000) 0 [(32768, 256), (0, 512)])
    ∧ get_elf_addr_and_size
        ["Entry point 0x8000", "  LOAD 0x0 0x0 0x8000 0x100 0x100 R E"]
      = some (32768, 256) :=
  c3_elf_scan "Entry point 0x8000"
    ["  LOAD 0x0 0x0 0x8000 0x100 0x100 R E", "  LOAD 0x0 0x0 0x0 0x200 0x200 R E"]
    32768 [(32768, 256), (0, 512)]
    (by decide) (by decide)
    (List.Forall₂.cons (by decide) (List.Forall₂.cons (by decide) List.Forall₂.nil))
    (by decide)

/-- C4 counterexample: entry point `0x8000` and a single LOAD line with base
`0x10000`; the bases masked with `0xFFFF0000` differ (`0x10000 ≠ 0`), so under
the claim no LOAD line qualifies and the size should stay `0`; the code
nevertheless returns that line's size `0x100`. -/
theorem c4_elf_defaults_cex :
    get_elf_addr_and_size ["Entry point 0x8000", "  LOAD 0x0 0x0 0x10000 0x100 0x100 R E"]
      = some (32768, 256)
    ∧ (get_elf_addr_and_size
        ["Entry point 0x8000", "  LOAD 0x0 0x0 0x10000 0x100 0x100 R E"]).map Prod.snd
      ≠ some 0
    ∧ Nat.land 65536 0xFFFF0000 ≠ Nat.land 32768 0xFFFF0000 :=
  ⟨by decide, by decide, by decide⟩

/-- C4 (amended): with no entry-point line the start stays at the sentinel
`u32::MAX`; and when no scanned LOAD line's base equals
`start & 0xFFFF0000`, the returned size is the size field of the last LOAD
line, or `0` only when no line matches the LOAD pattern at all. -/
theorem c4_elf_sentinel_defaults (ls : List String)
    (hne : ∀ l ∈ ls, ∀ v, elfEv l ≠ ElfEv.entry v)
    (hfit : ∀ p ∈ loadsOf ls, p.1 < 4294967296 ∧ p.2 < 4294967296)
    (hnq : ∀ p ∈ loadsOf ls, p.1 ≠ Nat.land 4294967295 0xFFFF0000) :
    get_elf_addr_and_size ls
      = some (4294967295, (((loadsOf ls).map Prod.snd).getLast?).getD 0) :=
  elfScan_noentry ls 4294967295 0 hne hfit hnq

/-- Witness for C4 (amended): a dump with no entry line and one LOAD line. -/
theorem c4_elf_sentinel_defaults_wit :
    get_elf_addr_and_size ["hello", "  LOAD 0x0 0x0 0x10000 0x100 0x100 R E"]
      = some (4294967295,
          (((loadsOf ["hello", "  LOAD 0x0 0x0 0x10000 0x100 0x100 R E"]).map
            Prod.snd).getLast?).getD 0) := by
  apply c4_elf_sentinel_defaults
  · intro l hl v
    simp only [List.mem_cons, List.not_mem_nil, or_false] at hl
    rcases hl with rfl | rfl
    · rw [show elfEv "hello" = ElfEv.other from by decide]
      exact fun h => ElfEv.noConfusion h
    · rw [show elfEv "  LOAD 0x0 0x0 0x10000 0x100 0x100 R E" = ElfEv.load 65536 256
        from by decide]
      exact fun h => ElfEv.noConfusion h
  · intro p hp
    rw [show loadsOf ["hello", "  LOAD 0x0 0x0 0x10000 0x100 0x100 R E"] = [(65536, 256)]
      from by decide] at hp
    simp only [List.mem_singleton] at hp
    subst hp
    decide
  · intro p hp
    rw [show loadsOf ["hello", "  LOAD 0x0 0x0 0x10000 0x100 0x100 R E"] = [(65536, 256)]
      from by decide] at hp
    simp only [List.mem_singleton] at hp
    subst hp
    decide
